import Mathlib

/-!
Verification development for the pysolo-tools tracking/aggregation engine
(`pysolo_video.py`, `pysolo_config.py`).

The Python code is shallowly embedded as executable Lean definitions:

* numpy `uint32` storage is modelled as `ℕ` together with an explicit
  `% 2 ^ 32`; the float → uint32 cast truncates toward zero and wraps;
* detected centroids (Python floats) are modelled as `ℚ`;
* the per-ROI aggregation buffer `_aggregated_frames_fly_coord` is modelled
  as the list of its live slots `[0, _aggregated_frames_buffer_index)`;
  slots at or beyond the buffer index are never read by the code (reads are
  `[:bidx]` slices and the single write is at index `bidx`), so the
  roll-based compaction `_shift_data_window` corresponds to dropping the
  consumed front of the list;
* the pickle stream used by `save_rois`/`load_rois` is modelled as a
  length-prefixed integer stream: `pickle.dump` appends one self-describing
  record, `pickle.load` consumes the next record.
-/

/-! ### uint32 storage semantics (`np.uint32` buffers) -/

/-- Truncation of a rational toward zero, the rounding used by the C cast
performed when a Python float is stored into a `np.uint32` array. -/
def ratTrunc (q : ℚ) : ℤ :=
  if 0 ≤ q then ⌊q⌋ else ⌈q⌉

/-- The value actually stored when the float `q` is assigned into a
`dtype=np.uint32` array slot: truncate toward zero, then wrap mod `2^32`. -/
def toU32 (q : ℚ) : ℕ :=
  ((ratTrunc q) % (2 ^ 32 : ℤ)).toNat

/-- A stored fly position: one row of `_current_frame_fly_coord`
(`dtype=np.uint32`, shape `(rois, 2)`). -/
abbrev Coord := ℕ × ℕ

/-! ### `MonitoredArea.add_fly_coords` (pysolo_video.py lines 106-127) -/

/-- Squared Euclidean distance between the previously stored `uint32` point
and a freshly detected float point.  `MonitoredArea._distance` returns
`np.sqrt` of this quantity; the square root is zero exactly when this
quantity is zero, which is the only use `add_fly_coords` makes of it. -/
def sqDistQ (p : Coord) (c : ℚ × ℚ) : ℚ :=
  (c.1 - (p.1 : ℚ)) * (c.1 - (p.1 : ℚ)) + (c.2 - (p.2 : ℚ)) * (c.2 - (p.2 : ℚ))

/-- `MonitoredArea.add_fly_coords(roi_index, coords)`.  `state` is
`_current_frame_fly_coord` as a list of per-ROI rows; `coords` is `None`
when no blob was detected.  Returns the new state, the stored row that the
method returns, and the squared distance (the code returns its square
root). -/
def addFlyCoords (state : List Coord) (roiIndex : ℕ) (coords : Option (ℚ × ℚ)) :
    List Coord × Coord × ℚ :=
  let previous := state.getD roiIndex (0, 0)
  let fly : ℚ × ℚ :=
    match coords with
    | none => ((previous.1 : ℚ), (previous.2 : ℚ))
    | some c => c
  let d2 := sqDistQ previous fly
  let fly2 := if d2 = 0 then ((previous.1 : ℚ), (previous.2 : ℚ)) else fly
  let stored : Coord := (toU32 fly2.1, toU32 fly2.2)
  (state.set roiIndex stored, stored, d2)

/-- The accepted stored point for a single ROI (the single-ROI core of
`add_fly_coords`, used to drive the frame-activity machine). -/
def acceptCoords (previous : Coord) (coords : Option (ℚ × ℚ)) : Coord :=
  match coords with
  | none => previous
  | some c => if sqDistQ previous c = 0 then previous else (toU32 c.1, toU32 c.2)

/-! ### `ImageSource.get_scale` (pysolo_video.py lines 536-540) -/

/-- `ImageSource.get_scale`.  `size` is the native decode size `_size`
(set from the capture in `MovieFile.open`), `resolution` is the configured
target resolution `_resolution`.  The Python truthiness tests are: `_size
is not None`, `_resolution` (a tuple, falsy only when `None`), and each
component of `_resolution` nonzero. -/
def getScale (size resolution : Option (ℚ × ℚ)) : Option (ℚ × ℚ) :=
  match size, resolution with
  | some s, some r =>
      if r.1 ≠ 0 ∧ r.2 ≠ 0 then some (s.1 / r.1, s.2 / r.2) else none
  | _, _ => none

/-! ### ROI persistence (`save_rois` / `load_rois`, lines 208-227)

The ROI file holds two pickled objects in sequence: the ordered ROI list
and the parallel subject-count list.  The pickle stream is modelled as a
length-prefixed integer stream; each `pickle.dump` appends one record and
each `pickle.load` consumes the next record. -/

/-- A ROI: a tuple of four corner points in mask coordinates. -/
structure Roi where
  q1 : ℤ × ℤ
  q2 : ℤ × ℤ
  q3 : ℤ × ℤ
  q4 : ℤ × ℤ
deriving DecidableEq

/-- Flat encoding of a single ROI (eight coordinates). -/
def encodeRoi (r : Roi) : List ℤ :=
  [r.q1.1, r.q1.2, r.q2.1, r.q2.2, r.q3.1, r.q3.2, r.q4.1, r.q4.2]

/-- Flat encoding of a ROI list. -/
def encodeRoiList : List Roi → List ℤ
  | [] => []
  | r :: rest => encodeRoi r ++ encodeRoiList rest

/-- Decode one ROI from the stream, returning the remaining stream. -/
def decodeRoi : List ℤ → Option (Roi × List ℤ)
  | a :: b :: c :: d :: e :: f :: g :: h :: rest =>
      some (⟨(a, b), (c, d), (e, f), (g, h)⟩, rest)
  | _ => none

/-- Decode `n` ROIs from the stream. -/
def decodeRoiList : ℕ → List ℤ → Option (List Roi × List ℤ)
  | 0, s => some ([], s)
  | n + 1, s =>
    match decodeRoi s with
    | none => none
    | some (r, s1) =>
      match decodeRoiList n s1 with
      | none => none
      | some (rs, s2) => some (r :: rs, s2)

/-- `pickle.dump(self.ROIS, cf)`: one self-describing record. -/
def pickleRois (rois : List Roi) : List ℤ :=
  (rois.length : ℤ) :: encodeRoiList rois

/-- `pickle.load(cf)` for the ROI record. -/
def unpickleRois (s : List ℤ) : Option (List Roi × List ℤ) :=
  match s with
  | [] => none
  | n :: rest => if n < 0 then none else decodeRoiList n.toNat rest

/-- `pickle.dump(self._points_to_track, cf)`. -/
def pickleCounts (counts : List ℤ) : List ℤ :=
  (counts.length : ℤ) :: counts

/-- `pickle.load(cf)` for the subject-count record. -/
def unpickleCounts (s : List ℤ) : Option (List ℤ × List ℤ) :=
  match s with
  | [] => none
  | n :: rest =>
    if n < 0 then none
    else if n.toNat ≤ rest.length then some (rest.take n.toNat, rest.drop n.toNat)
    else none

/-- `MonitoredArea.save_rois`: dump the ROI list, then the count list. -/
def saveRois (rois : List Roi) (counts : List ℤ) : List ℤ :=
  pickleRois rois ++ pickleCounts counts

/-- `MonitoredArea.load_rois`: load the ROI list, then the count list;
fails (pickle raises) on a malformed stream. -/
def loadRois (file : List ℤ) : Option (List Roi × List ℤ) :=
  match unpickleRois file with
  | none => none
  | some (rois, rest) =>
    match unpickleCounts rest with
    | none => none
    | some (counts, _) => some (rois, counts)

/-! ### Contour selection in `_process_roi` (pysolo_video.py lines 920-948) -/

/-- An extracted contour, represented by the image moments the code reads
(`m00`, `m10`, `m01`) and its bounding rectangle `(rx, ry, rw, rh)`. -/
structure Contour where
  m00 : ℚ
  m10 : ℚ
  m01 : ℚ
  rx : ℚ
  ry : ℚ
  rw : ℚ
  rh : ℚ
deriving DecidableEq

/-- The (area, centroid) pair the loop body computes for one contour:
moments centroid `(m10/m00, m01/m00)` when the area moment is positive,
otherwise the bounding-box area and bounding-box center. -/
def contourAreaCoords (c : Contour) : ℚ × (ℚ × ℚ) :=
  if 0 < c.m00 then (c.m00, (c.m10 / c.m00, c.m01 / c.m00))
  else (c.rw * c.rh, (c.rx + c.rw / 2, c.ry + c.rh / 2))

/-- One iteration of the selection loop over `fly_cnts`: a contour with
area below the 400 ceiling is taken when nothing is selected yet, or when
its area strictly exceeds the current selection's area. -/
def selectFlyStep (acc : Option (ℚ × (ℚ × ℚ))) (c : Contour) : Option (ℚ × (ℚ × ℚ)) :=
  let ac := contourAreaCoords c
  if ac.1 < 400 then
    match acc with
    | none => some ac
    | some prev => if prev.1 < ac.1 then some ac else acc
  else acc

/-- The detection `_process_roi` feeds into `add_fly_coords` (area and
centroid; `none` when no contour qualifies). -/
def selectFly (cnts : List Contour) : Option (ℚ × (ℚ × ℚ)) :=
  cnts.foldl selectFlyStep none

/-- The largest-area qualifying contour, earliest on ties, written as a
structural recursion (reference form for the selection policy). -/
def largestQualifying : List Contour → Option (ℚ × (ℚ × ℚ))
  | [] => none
  | c :: rest =>
    let ac := contourAreaCoords c
    match largestQualifying rest with
    | none => if ac.1 < 400 then some ac else none
    | some best =>
        if ac.1 < 400 then (if ac.1 < best.1 then some best else some ac)
        else some best

/-- The selection policy as the claim words it: the FIRST contour whose
area is below the ceiling.  (Definition follows the spec's words, for
comparison with `selectFly`, which follows the source.) -/
def selectFlyFirstQualifying : List Contour → Option (ℚ × (ℚ × ℚ))
  | [] => none
  | c :: rest =>
    let ac := contourAreaCoords c
    if ac.1 < 400 then some ac else selectFlyFirstQualifying rest

/-- A contour with moment area 10 and moments centroid `(1, 1)`. -/
def contourSmall : Contour := ⟨10, 10, 10, 0, 0, 0, 0⟩

/-- A contour with moment area 50 and moments centroid `(2, 2)`. -/
def contourLarge : Contour := ⟨50, 100, 100, 0, 0, 0, 0⟩

/-! ### Tracking-data records and their merge (lines 477-527) -/

/-- `AveragePosition`: one aggregated position row for a single ROI.
`values` holds the (already `uint32`-truncated) per-window mean, `nValues`
the sample count `_n_values` the record was constructed with. -/
structure AveragePositionData where
  frameTime : ℚ
  values : ℚ × ℚ
  nValues : ℚ
deriving DecidableEq

/-- `AveragePosition.aggregate_with` (lines 515-519): the values become the
count-weighted mean of the two partial means, but `_n_values` is left at
the receiver's old count — the source never updates it. -/
def AveragePositionData.aggregateWith (a b : AveragePositionData) : AveragePositionData :=
  { frameTime := b.frameTime
    values :=
      ((a.values.1 * a.nValues + b.values.1 * b.nValues) / (a.nValues + b.nValues),
       (a.values.2 * a.nValues + b.values.2 * b.nValues) / (a.nValues + b.nValues))
    nValues := a.nValues }

/-! ### Configuration validation (pysolo_config.py lines 129-159, 299-313)

Each Python `%`-formatted error message is modelled by one constructor
carrying the formatted-in values. -/

/-- The error messages `validate` can produce. -/
inductive ConfigError
  | videoSourceNotDefined
  | videoSourceMissing (f : String)
  | resultsDirNotSet
  | acqTimeNotSet
  | imageSizeNotSet
  | imageWidthZero
  | imageHeightZero
  | areaCountNotPositive
  | areaCountTooLarge
  | maskFileNotSet
  | maskFileMissing (f : String)
  | invalidTrackType (t : ℤ)
  | intervalNotPositive (i : ℤ)
  | invalidIntervalUnits (u : String)
  | region (idx : ℤ) (e : ConfigError)
deriving DecidableEq

/-- The fields of `MonitoredAreaOptions` that `validate` inspects. -/
structure MonitoredAreaOptions where
  maskfile : Option String
  trackType : ℤ
  aggregationInterval : ℤ
  aggregationIntervalUnits : Option String
deriving DecidableEq

/-- `MonitoredAreaOptions.validate`.  `fileExists` models
`os.path.exists`.  Note the allowed units include `None`. -/
def maValidate (fileExists : String → Bool) (o : MonitoredAreaOptions) : List ConfigError :=
  (match o.maskfile with
   | none => [ConfigError.maskFileNotSet]
   | some m =>
     if m = "" then [ConfigError.maskFileNotSet]
     else if fileExists m then [] else [ConfigError.maskFileMissing m]) ++
  (if o.trackType = 0 ∨ o.trackType = 1 ∨ o.trackType = 2 then []
   else [ConfigError.invalidTrackType o.trackType]) ++
  (if o.aggregationInterval ≤ 0 then [ConfigError.intervalNotPositive o.aggregationInterval]
   else []) ++
  (match o.aggregationIntervalUnits with
   | none => []
   | some u =>
     if u = "frames" ∨ u = "sec" ∨ u = "min" then []
     else [ConfigError.invalidIntervalUnits u])

/-- The fields of `ConfigOptions` that `validate` inspects.  `acqTime` is
`True` when an acquisition time is set (a `datetime` is always truthy). -/
structure ConfigOptions where
  source : Option String
  dataFolder : Option String
  acqTime : Bool
  imageSize : Option (ℤ × ℤ)
  monitoredAreasCount : ℤ
  monitoredAreas : List MonitoredAreaOptions
deriving DecidableEq

/-- `ConfigOptions.validate_source`.  When `_image_size` is `None`,
`get_image_width`/`get_image_height` both return 0, so three size messages
accumulate. -/
def validateSource (fileExists : String → Bool) (c : ConfigOptions) : List ConfigError :=
  (match c.source with
   | none => [ConfigError.videoSourceNotDefined]
   | some s =>
     if s = "" then [ConfigError.videoSourceNotDefined]
     else if fileExists s then [] else [ConfigError.videoSourceMissing s]) ++
  (match c.dataFolder with
   | none => [ConfigError.resultsDirNotSet]
   | some d => if d = "" then [ConfigError.resultsDirNotSet] else []) ++
  (if c.acqTime then [] else [ConfigError.acqTimeNotSet]) ++
  (match c.imageSize with
   | none => [ConfigError.imageSizeNotSet, ConfigError.imageWidthZero, ConfigError.imageHeightZero]
   | some sz =>
     (if sz.1 = 0 then [ConfigError.imageWidthZero] else []) ++
     (if sz.2 = 0 then [ConfigError.imageHeightZero] else []))

/-- Python's `list[:n]` slice: clamps a large `n`, and a negative `n`
drops elements from the end. -/
def pyTakeSlice (l : List MonitoredAreaOptions) (n : ℤ) : List MonitoredAreaOptions :=
  if n < 0 then l.take (l.length - (-n).toNat) else l.take n.toNat

/-- The `'Region %d: %s'`-tagged errors of the monitored areas, starting
at 1-based region index `i`. -/
def regionErrors (fileExists : String → Bool) : ℤ → List MonitoredAreaOptions → List ConfigError
  | _, [] => []
  | i, a :: rest =>
    (maValidate fileExists a).map (ConfigError.region i) ++ regionErrors fileExists (i + 1) rest

/-- `ConfigOptions.validate`.  The area-count message is produced only by
the exact test `_monitored_areas_count == 0`. -/
def configValidate (fileExists : String → Bool) (c : ConfigOptions) : List ConfigError :=
  validateSource fileExists c ++
  (if c.monitoredAreasCount = 0 then [ConfigError.areaCountNotPositive]
   else if (c.monitoredAreas.length : ℤ) < c.monitoredAreasCount then
     [ConfigError.areaCountTooLarge]
   else []) ++
  regionErrors fileExists 1 (pyTakeSlice c.monitoredAreas c.monitoredAreasCount)

/-! ### The frame-activity aggregation machine
(`MonitoredArea.update_frame_activity` / `aggregate_activity` /
`_calculate_distances` / `_shift_data_window` / `write_activity`,
pysolo_video.py lines 229-314, 364-387)

The machine is modelled for one ROI with track type `distance` (numpy
vectorises the identical index discipline over all ROI rows).  A tracking
row carries the list of consecutive-frame coordinate pairs whose distances
`_calculate_distances` sums into it: `DistanceSum.combine_values(v1, v2) =
v1 + v2` corresponds to list concatenation, and the row's numeric value is
the sum of `sqrt` of the squared pair distances. -/

/-- uint32 subtraction `b - a` as numpy performs it on the coordinate
buffers (operands below `2^32`). -/
def u32sub (b a : ℕ) : ℕ := (b + 2 ^ 32 - a) % 2 ^ 32

/-- The squared distance `(x2-x1)**2 + (y2-y1)**2` as `_distance` computes
it on `uint32` arrays: each difference and each product wraps mod `2^32`,
as does the final sum.  `np.sqrt` of this value is the distance. -/
def sqDistU32 (p q : Coord) : ℕ :=
  (u32sub q.1 p.1 * u32sub q.1 p.1 % 2 ^ 32 + u32sub q.2 p.2 * u32sub q.2 p.2 % 2 ^ 32) % 2 ^ 32

/-- One tracking-data row (distance track type): the consecutive-frame
pairs whose distances were summed into the row. -/
abbrev DistRow := List (Coord × Coord)

/-- The consecutive pairs of a frame window: `consecPairs [s1, ..., sm] =
[(s1,s2), ..., (sm-1,sm)]` — exactly the `nframes = bidx - 1` pairs that
`d[:, :nframes].sum(axis=1)` adds up. -/
def consecPairs : List Coord → DistRow
  | a :: b :: rest => (a, b) :: consecPairs (b :: rest)
  | _ => []

/-- Concatenation of a list of rows. -/
def flatJoin : List DistRow → DistRow
  | [] => []
  | r :: rest => r ++ flatJoin rest

/-- `self._tracking_data_buffer[i].aggregate_with(activity)`: append the
new row's pairs to the row at index `i` (the code's index is always in
range; out of range is modelled as a no-op). -/
def updateAt : List DistRow → ℕ → DistRow → List DistRow
  | [], _, _ => []
  | r :: rest, 0, row => (r ++ row) :: rest
  | r :: rest, n + 1, row => r :: updateAt rest n row

/-- The `MonitoredArea` state the aggregation machinery touches, for one
ROI.  `buffer` is the live prefix `[0, _aggregated_frames_buffer_index)`
of `_aggregated_frames_fly_coord`; `written` is the rows flushed to disk
by `write_activity`. -/
structure MAState where
  aggregatedFrames : ℕ
  aggregatedFramesSize : ℕ
  trackingDataBufferSize : ℕ
  buffer : List Coord
  aggregatedFrameIndex : ℕ
  currentFrameFlyCoord : Coord
  trackingDataBuffer : List DistRow
  trackingDataBufferIndex : ℕ
  written : List DistRow
deriving DecidableEq

/-- The constructor `MonitoredArea.__init__` (lines 36-86): the guards
`aggregated_frames if > 0 else 1`, `aggregated_frames_size + 1 if > 0 else
2` and `tracking_data_buffer_size if > 0 else 1`. -/
def mkMonitoredArea (aggregatedFrames aggregatedFramesSize trackingDataBufferSize : ℤ) :
    MAState :=
  { aggregatedFrames := if 0 < aggregatedFrames then aggregatedFrames.toNat else 1
    aggregatedFramesSize := if 0 < aggregatedFramesSize then aggregatedFramesSize.toNat + 1 else 2
    trackingDataBufferSize := if 0 < trackingDataBufferSize then trackingDataBufferSize.toNat else 1
    buffer := []
    aggregatedFrameIndex := 0
    currentFrameFlyCoord := (0, 0)
    trackingDataBuffer := []
    trackingDataBufferIndex := 0
    written := [] }

/-- `_shift_data_window(nframes)` with `nframes = bidx - 1`: the roll plus
index decrement keeps only the last live slot. -/
def shiftDataWindow (st : MAState) : MAState :=
  { st with buffer := st.buffer.drop (st.buffer.length - 1) }

/-- The row `_calculate_distances` produces: all `bidx - 1` consecutive
pairs of the live window when `nframes > 0`, otherwise a zero row. -/
def calcDistRow (st : MAState) : DistRow :=
  if 2 ≤ st.buffer.length then consecPairs st.buffer else []

/-- The state change of `_calculate_distances`: the window is compacted
only when `nframes > 0`. -/
def calcDistState (st : MAState) : MAState :=
  if 2 ≤ st.buffer.length then shiftDataWindow st else st

/-- The tail of `aggregate_activity`: append the computed row as a new
pending output row, or merge it (`aggregate_with`, old values first) into
the pending row at `_tracking_data_buffer_index`. -/
def bufferRow (st1 : MAState) (row : DistRow) : MAState :=
  if st1.trackingDataBuffer.length ≤ st1.trackingDataBufferIndex then
    { st1 with trackingDataBuffer := st1.trackingDataBuffer ++ [row] }
  else
    { st1 with trackingDataBuffer := updateAt st1.trackingDataBuffer st1.trackingDataBufferIndex row }

/-- `aggregate_activity(frame_time)` for the distance track type: compute
the window's row, compact the window, then buffer or merge the row. -/
def aggregateActivity (st : MAState) : MAState :=
  bufferRow (calcDistState st) (calcDistRow st)

/-- `write_activity`: flush the buffered rows to disk and reset the
tracking-data buffer (`_reset_tracking_data_buffer` also clears
`_aggregated_frame_index`). -/
def writeActivity (st : MAState) : MAState :=
  { st with
    written := st.written ++ st.trackingDataBuffer
    trackingDataBuffer := []
    trackingDataBufferIndex := 0
    aggregatedFrameIndex := 0 }

/-- After the interval-boundary aggregation: buffer the aggregated
activity if there is room, or dump the current data buffers to disk. -/
def bufferOrFlush (sta : MAState) : MAState :=
  if sta.trackingDataBuffer.length < sta.trackingDataBufferSize then
    { sta with trackingDataBufferIndex := sta.trackingDataBufferIndex + 1 }
  else writeActivity sta

/-- The branch of `update_frame_activity` before the append: aggregate on
the logical-interval boundary (buffering or flushing the finished row and
resetting the logical counter), else aggregate when the physical buffer is
full, else do nothing. -/
def updateStep1 (st : MAState) : MAState :=
  if st.aggregatedFrames ≤ st.aggregatedFrameIndex then
    { bufferOrFlush (aggregateActivity st) with aggregatedFrameIndex := 0 }
  else if st.aggregatedFramesSize ≤ st.buffer.length then aggregateActivity st
  else st

/-- The unconditional tail of `update_frame_activity`: write the current
per-ROI point at the buffer index and advance both indices. -/
def appendCurrent (st1 : MAState) : MAState :=
  { st1 with
    buffer := st1.buffer ++ [st1.currentFrameFlyCoord]
    aggregatedFrameIndex := st1.aggregatedFrameIndex + 1 }

/-- `update_frame_activity(frame_time)`: the aggregation branch, then the
append of the current per-ROI point. -/
def updateFrameActivity (st : MAState) : MAState :=
  appendCurrent (updateStep1 st)

/-- One frame for a given accepted per-ROI sample: the pipeline stores the
accepted coordinates and then calls `update_frame_activity`. -/
def stepCoord (st : MAState) (c : Coord) : MAState :=
  updateFrameActivity { st with currentFrameFlyCoord := c }

/-- Run the machine over a sequence of accepted per-frame samples. -/
def runCoords : MAState → List Coord → MAState
  | st, [] => st
  | st, c :: rest => runCoords (stepCoord st c) rest

/-- One frame for a detected centroid (or `None`): `add_fly_coords` then
`update_frame_activity`, as `process_image_frames` drives them. -/
def stepFrame (st : MAState) (coords : Option (ℚ × ℚ)) : MAState :=
  stepCoord st (acceptCoords st.currentFrameFlyCoord coords)

/-- Run the machine over a sequence of detected centroids. -/
def runFrames : MAState → List (Option (ℚ × ℚ)) → MAState
  | st, [] => st
  | st, c :: rest => runFrames (stepFrame st c) rest

/-- The mandatory end-of-stream step of `process_image_frames` (lines
856-863): one final `aggregate_activity` followed by `write_activity`. -/
def finishRun (st : MAState) : MAState :=
  writeActivity (aggregateActivity st)

/-! ### Per-ROI aggregation values
(`_calculate_distances` / `_calculate_vbm` / `_calculate_position`,
lines 364-462, and `is_roi_trackable`, line 99) -/

/-- `MonitoredArea.is_roi_trackable`: no filter, an empty filter, or
membership. -/
def isRoiTrackable (roiFilter : Option (List ℕ)) (roi : ℕ) : Bool :=
  match roiFilter with
  | none => true
  | some l => l = ([] : List ℕ) || roi ∈ l

/-- The beam-crossing count of one ROI's window (`_calculate_vbm` loop
body): the beam is horizontal when its endpoints share the `y` coordinate,
and a pair of consecutive frames crosses when the position passes the
midline in either direction.  Beam coordinates are the ROI-relative
midline, possibly half-integral. -/
def crossesCount (beam : (ℚ × ℚ) × (ℚ × ℚ)) (frames : List Coord) : ℕ :=
  if 2 ≤ frames.length then
    ((consecPairs frames).map fun pq =>
      (if beam.1.2 = beam.2.2 then
        (if (pq.1.2 : ℚ) < beam.1.2 ∧ beam.1.2 ≤ (pq.2.2 : ℚ) then 1 else 0) +
        (if beam.1.2 < (pq.1.2 : ℚ) ∧ (pq.2.2 : ℚ) ≤ beam.1.2 then 1 else 0)
      else
        (if (pq.1.1 : ℚ) < beam.1.1 ∧ beam.1.1 ≤ (pq.2.1 : ℚ) then 1 else 0) +
        (if beam.1.1 < (pq.1.1 : ℚ) ∧ (pq.2.1 : ℚ) ≤ beam.1.1 then 1 else 0))).sum
  else 0

/-- One ROI's entry in the `_calculate_vbm` output vector: the crossing
count when the ROI is trackable, the constant 0 otherwise. -/
def calcVbmRoi (trackable : Bool) (beam : (ℚ × ℚ) × (ℚ × ℚ)) (frames : List Coord) : ℕ :=
  if trackable then crossesCount beam frames else 0

/-- One ROI's entry in the `_calculate_position` output vector: the mean
of the window's last `nframes = bidx - 1` samples (the roll skips slot 0),
truncated by the assignment into the `uint32` values array; zero when
`nframes <= 0`.  (The float64 mean is exact here for any window the 600
frame cap allows.) -/
def calcPositionRoi (frames : List Coord) : Coord :=
  if 2 ≤ frames.length then
    (((frames.drop 1).map Prod.fst).sum / (frames.length - 1),
     ((frames.drop 1).map Prod.snd).sum / (frames.length - 1))
  else (0, 0)

/-- The `AveragePosition(frame_time, values, count)` record built by
`aggregate_activity` for one ROI: values from `_calculate_position`, count
`nframes = bidx - 1`. -/
def mkAveragePosition (t : ℚ) (frames : List Coord) : AveragePositionData :=
  { frameTime := t
    values := (((calcPositionRoi frames).1 : ℚ), ((calcPositionRoi frames).2 : ℚ))
    nValues := (frames.length : ℚ) - 1 }

/-! ### The end-to-end distance scenario (spec section 8)

100 frames at 10 fps, one ROI, the detected centroid at frame `k`
(1-based) is `(k, 0)` — it advances by exactly 1 px per frame along the
beam axis — track type distance, aggregation interval 50 frames.
`prepare_monitored_areas` passes `aggregated_frames_size = min(50, 600) =
50` and leaves the tracking-data buffer size at its default 5. -/

/-- The per-frame accepted samples produced by a run of `add_fly_coords`:
each frame's accepted point, in order. -/
def acceptedScan (p : Coord) : List (Option (ℚ × ℚ)) → List Coord
  | [] => []
  | c :: rest =>
    let q := acceptCoords p c
    q :: acceptedScan q rest

/-- The accepted samples of the scenario: `(k, 0)` for `k = 1, ..., 100`. -/
def c2Samples : List Coord := (List.range 100).map fun k => (k + 1, 0)

/-- The scenario's detected centroid stream. -/
def c2Inputs : List (Option (ℚ × ℚ)) :=
  c2Samples.map fun c => some ((c.1 : ℚ), (c.2 : ℚ))

/-- The scenario's final state: 100 frames through `add_fly_coords` and
`update_frame_activity`, then the mandatory end-of-stream
`aggregate_activity` and `write_activity`. -/
def c2Run : MAState :=
  finishRun (runFrames (mkMonitoredArea 50 50 5) c2Inputs)

/-! ### Statement-level definitions used by the theorems -/

/-- Merging an accumulator with the best-so-far of a suffix, the algebra
of the contour-selection fold: keep the larger area, the accumulator on
ties. -/
def mergeSel : Option (ℚ × (ℚ × ℚ)) → Option (ℚ × (ℚ × ℚ)) → Option (ℚ × (ℚ × ℚ))
  | none, r => r
  | some p, none => some p
  | some p, some b => if p.1 < b.1 then some b else some p

/-- The last-sample pair contributed when `c` is appended to a window with
last element `a`: `consecPairs (l ++ [c]) = consecPairs l ++ lastPair l c`. -/
def lastPair (l : List Coord) (c : Coord) : DistRow :=
  match l.getLast? with
  | none => []
  | some a => [(a, c)]

/-- The squared step distances of a tracking row, in order. -/
def rowSqDists (r : DistRow) : List ℕ :=
  r.map fun pq => sqDistU32 pq.1 pq.2

/-- The machine invariant tying a `MonitoredArea` state to the full
history of appended per-frame samples: the buffer size is fixed and at
least 2, the live window never exceeds it, the window is a suffix of the
history ending at the last appended sample, the steps in flushed rows,
pending rows, and the live window partition the history's consecutive
steps in order, and the pending-row index points at the last pending
row. -/
structure MAInv (sz : ℕ) (st : MAState) (hist : List Coord) : Prop where
  size_eq : st.aggregatedFramesSize = sz
  size_ge : 2 ≤ sz
  buf_bound : st.buffer.length ≤ sz
  buf_last : st.buffer.getLast? = hist.getLast?
  account : flatJoin st.written ++ (flatJoin st.trackingDataBuffer ++ consecPairs st.buffer)
            = consecPairs hist
  rows_idx : st.trackingDataBuffer.length = st.trackingDataBufferIndex
             ∨ st.trackingDataBuffer.length = st.trackingDataBufferIndex + 1

/-! #### Concrete inputs for the `AveragePosition` merge bug (C3)

Three successive partial windows as the machine produces them for the
position track type (each window retains the previous window's last
sample; each aggregates `nframes = 1` sample), against the whole window
aggregated at once. -/

/-- First partial window: initial sample `(0,0)`, then `(0,0)`. -/
def c3Window1 : List Coord := [(0, 0), (0, 0)]

/-- Second partial window: retained `(0,0)`, then `(3,0)`. -/
def c3Window2 : List Coord := [(0, 0), (3, 0)]

/-- Third partial window: retained `(3,0)`, then `(3,0)`. -/
def c3Window3 : List Coord := [(3, 0), (3, 0)]

/-- The same samples as one window. -/
def c3WholeWindow : List Coord := [(0, 0), (0, 0), (3, 0), (3, 0)]

/-- The row obtained by merging the three partial aggregates with
`AveragePosition.aggregate_with`. -/
def c3MergedRecord : AveragePositionData :=
  ((mkAveragePosition 1 c3Window1).aggregateWith (mkAveragePosition 2 c3Window2)).aggregateWith
    (mkAveragePosition 3 c3Window3)

/-! #### Rule-violation predicates for configuration validation (C9) -/

/-- The mask-file rule of `MonitoredAreaOptions.validate`: unset, empty,
or nonexistent. -/
def maskRuleViolated (fileExists : String → Bool) (o : MonitoredAreaOptions) : Bool :=
  match o.maskfile with
  | none => true
  | some m => if m = "" then true else !(fileExists m)

/-- The track-type rule: the code accepts exactly `{0, 1, 2}`. -/
def trackTypeRuleViolated (o : MonitoredAreaOptions) : Bool :=
  if o.trackType = 0 ∨ o.trackType = 1 ∨ o.trackType = 2 then false else true

/-- The aggregation-interval rule: the interval must be positive. -/
def intervalRuleViolated (o : MonitoredAreaOptions) : Bool :=
  if o.aggregationInterval ≤ 0 then true else false

/-- The interval-units rule: the code accepts `None`, `frames`, `sec`,
`min`. -/
def unitsRuleViolated (o : MonitoredAreaOptions) : Bool :=
  match o.aggregationIntervalUnits with
  | none => false
  | some u => if u = "frames" ∨ u = "sec" ∨ u = "min" then false else true

/-- A filesystem on which every path exists. -/
def allFilesExist : String → Bool := fun _ => true

/-- A configuration whose only flaw is a negative monitored-area count. -/
def c9NegCountConfig : ConfigOptions :=
  { source := some "video.avi"
    dataFolder := some "out"
    acqTime := true
    imageSize := some (640, 480)
    monitoredAreasCount := -1
    monitoredAreas := [] }

/-- Monitored-area options whose units field is `None`. -/
def c9NoneUnitsOptions : MonitoredAreaOptions :=
  { maskfile := some "mask.msk"
    trackType := 0
    aggregationInterval := 60
    aggregationIntervalUnits := none }

/-- Monitored-area options violating all four area-level rules at once. -/
def c9AllBadOptions : MonitoredAreaOptions :=
  { maskfile := none
    trackType := 7
    aggregationInterval := -5
    aggregationIntervalUnits := some "hours" }

/-- A configuration with one monitored area and a count of 0. -/
def c9ZeroCountConfig : ConfigOptions :=
  { source := some "video.avi"
    dataFolder := some "out"
    acqTime := true
    imageSize := some (640, 480)
    monitoredAreasCount := 0
    monitoredAreas := [c9AllBadOptions] }

/-- A configuration with one monitored area, count 1, area invalid. -/
def c9OneAreaConfig : ConfigOptions :=
  { source := some "video.avi"
    dataFolder := some "out"
    acqTime := true
    imageSize := some (640, 480)
    monitoredAreasCount := 1
    monitoredAreas := [c9AllBadOptions] }

/-! ## Helper lemmas -/

theorem sqDistQ_eq_zero_iff (p : Coord) (c : ℚ × ℚ) :
    sqDistQ p c = 0 ↔ c = ((p.1 : ℚ), (p.2 : ℚ)) := by
  unfold sqDistQ
  constructor
  · intro h
    have h1 : (c.1 - (p.1 : ℚ)) * (c.1 - (p.1 : ℚ)) = 0 := by
      nlinarith [mul_self_nonneg (c.1 - (p.1 : ℚ)), mul_self_nonneg (c.2 - (p.2 : ℚ))]
    have h2 : (c.2 - (p.2 : ℚ)) * (c.2 - (p.2 : ℚ)) = 0 := by
      nlinarith [mul_self_nonneg (c.1 - (p.1 : ℚ)), mul_self_nonneg (c.2 - (p.2 : ℚ))]
    have e1 : c.1 = (p.1 : ℚ) := by
      have := mul_self_eq_zero.mp h1; linarith
    have e2 : c.2 = (p.2 : ℚ) := by
      have := mul_self_eq_zero.mp h2; linarith
    exact Prod.ext e1 e2
  · intro h
    rw [h]
    ring

theorem toU32_natCast {n : ℕ} (h : n < 2 ^ 32) : toU32 ((n : ℚ)) = n := by
  unfold toU32 ratTrunc
  rw [if_pos (by positivity), Int.floor_natCast, Int.emod_eq_of_lt (by positivity) (by exact_mod_cast h)]
  simp

theorem listSet_getD_self (l : List Coord) (i : ℕ) (d : Coord) (h : i < l.length) :
    l.set i (l.getD i d) = l := by
  induction l generalizing i with
  | nil => simp at h
  | cons a t ih =>
    cases i with
    | zero => simp
    | succ j =>
      simp only [List.set, List.getD, List.getElem?_cons_succ, List.cons.injEq, true_and]
      have := ih j (by simpa using h)
      simpa [List.getD] using this

theorem listGetD_set_ne (l : List Coord) (i j : ℕ) (v d : Coord) (h : j ≠ i) :
    (l.set i v).getD j d = l.getD j d := by
  induction l generalizing i j with
  | nil => simp
  | cons a t ih =>
    cases i with
    | zero =>
      cases j with
      | zero => exact absurd rfl h
      | succ k => simp [List.getD]
    | succ i2 =>
      cases j with
      | zero => simp [List.getD]
      | succ k =>
        simp only [List.set, List.getD, List.getElem?_cons_succ]
        have := ih i2 k (fun hk => h (by rw [hk]))
        simpa [List.getD] using this

/-! ## C8: ROI save/load round trip -/

theorem decodeRoi_encodeRoi (r : Roi) (t : List ℤ) :
    decodeRoi (encodeRoi r ++ t) = some (r, t) := by
  obtain ⟨⟨a, b⟩, ⟨c, d⟩, ⟨e, f⟩, ⟨g, h⟩⟩ := r
  rfl

theorem decodeRoiList_encodeRoiList (rs : List Roi) (t : List ℤ) :
    decodeRoiList rs.length (encodeRoiList rs ++ t) = some (rs, t) := by
  induction rs with
  | nil => rfl
  | cons r rest ih =>
    simp only [List.length_cons, encodeRoiList, decodeRoiList, List.append_assoc,
      decodeRoi_encodeRoi, ih]

/-- C8: for every ordered ROI list and parallel subject-count list, saving
them with `save_rois` and loading the resulting file with `load_rois`
restores exactly the same ordered ROI list and the same subject-count
list, with ROI order preserved. -/
theorem c8_roi_save_load_round_trip (rois : List Roi) (counts : List ℤ) :
    loadRois (saveRois rois counts) = some (rois, counts) := by
  have h1 : unpickleRois (saveRois rois counts) = some (rois, pickleCounts counts) := by
    simp only [saveRois, pickleRois, unpickleRois, List.cons_append]
    rw [if_neg (by omega)]
    have hn : ((rois.length : ℤ)).toNat = rois.length := by omega
    rw [hn, decodeRoiList_encodeRoiList]
  have h2 : unpickleCounts (pickleCounts counts) = some (counts, []) := by
    simp only [pickleCounts, unpickleCounts]
    rw [if_neg (by omega)]
    have hc : ((counts.length : ℤ)).toNat = counts.length := by omega
    rw [hc, if_pos (le_refl _)]
    simp
  simp only [loadRois, h1, h2]

/-! ## C5: `get_scale` -/

/-- C5 counterexample: with native decode size `(640, 480)` and target
resolution `(320, 240)`, `get_scale` returns `(2, 2)` — native divided by
target — not the claimed `(320/640, 240/480) = (1/2, 1/2)`. -/
theorem c5_scale_counterexample :
    getScale (some (640, 480)) (some (320, 240)) = some (2, 2) ∧
    ((2 : ℚ), (2 : ℚ)) ≠ ((320 : ℚ) / 640, (240 : ℚ) / 480) := by
  constructor
  · simp only [getScale]
    norm_num
  · intro h
    rw [Prod.mk.injEq] at h
    norm_num at h

/-- C5 amended: when both the native size and the target resolution are
set and the target components are nonzero, `get_scale` returns native
divided by target in each axis (`(w/rw, h/rh)`); otherwise it returns
`None`. -/
theorem c5_amended_get_scale_native_over_target (w h rw2 rh2 : ℚ)
    (hw : rw2 ≠ 0) (hh : rh2 ≠ 0) :
    getScale (some (w, h)) (some (rw2, rh2)) = some (w / rw2, h / rh2)
    ∧ (∀ r, getScale none r = none)
    ∧ (∀ s, getScale s none = none)
    ∧ (∀ s y, getScale (some s) (some (0, y)) = none)
    ∧ (∀ s x, getScale (some s) (some (x, 0)) = none) := by
  refine ⟨?_, fun r => rfl, fun s => ?_, fun s y => ?_, fun s x => ?_⟩
  · simp only [getScale]
    rw [if_pos ⟨hw, hh⟩]
  · cases s <;> rfl
  · simp only [getScale]
    rw [if_neg (by simp)]
  · simp only [getScale]
    rw [if_neg (by simp)]

theorem c5_amended_witness :
    getScale (some ((640 : ℚ), (480 : ℚ))) (some (320, 240)) = some (640 / 320, 480 / 240) :=
  (c5_amended_get_scale_native_over_target 640 480 320 240 (by norm_num) (by norm_num)).1

/-! ## C10: uint32 storage of accepted positions -/

theorem addFlyCoords_some_moved (state : List Coord) (i : ℕ) (x y : ℚ)
    (hd2 : sqDistQ (state.getD i (0, 0)) (x, y) ≠ 0) :
    addFlyCoords state i (some (x, y))
      = (state.set i (toU32 x, toU32 y), (toU32 x, toU32 y),
         sqDistQ (state.getD i (0, 0)) (x, y)) := by
  simp only [addFlyCoords]
  rw [if_neg hd2]

theorem addFlyCoords_none_eval (state : List Coord) (i : ℕ) :
    addFlyCoords state i none
      = (state.set i (toU32 (((state.getD i (0, 0)).1 : ℚ)), toU32 (((state.getD i (0, 0)).2 : ℚ))),
         (toU32 (((state.getD i (0, 0)).1 : ℚ)), toU32 (((state.getD i (0, 0)).2 : ℚ))), 0) := by
  have hz := (sqDistQ_eq_zero_iff (state.getD i (0, 0))
    (((state.getD i (0, 0)).1 : ℚ), ((state.getD i (0, 0)).2 : ℚ))).mpr rfl
  simp only [addFlyCoords]
  rw [if_pos hz, hz]

theorem addFlyCoords_some_still (state : List Coord) (i : ℕ) :
    addFlyCoords state i
        (some (((state.getD i (0, 0)).1 : ℚ), ((state.getD i (0, 0)).2 : ℚ)))
      = (state.set i (toU32 (((state.getD i (0, 0)).1 : ℚ)), toU32 (((state.getD i (0, 0)).2 : ℚ))),
         (toU32 (((state.getD i (0, 0)).1 : ℚ)), toU32 (((state.getD i (0, 0)).2 : ℚ))), 0) := by
  have hz := (sqDistQ_eq_zero_iff (state.getD i (0, 0))
    (((state.getD i (0, 0)).1 : ℚ), ((state.getD i (0, 0)).2 : ℚ))).mpr rfl
  simp only [addFlyCoords]
  rw [if_pos hz, hz]

/-- C10: positions are stored through the float → `uint32` cast: for a
nonnegative centroid coordinate the fractional part is truncated (floor)
and the result is reduced mod `2^32`; a fractional value like `5/2` stores
as `2`; a negative value like `-3/2` truncates to `-1` and wraps to
`2^32 - 1`; and an accepted detection `(x, y)` is stored in — and later
aggregated from — the buffers as exactly `(toU32 x, toU32 y)`. -/
theorem c10_uint32_truncation_storage :
    (∀ q : ℚ, 0 ≤ q → ((toU32 q : ℤ)) = ⌊q⌋ % 2 ^ 32)
    ∧ toU32 ((5 : ℚ) / 2) = 2
    ∧ toU32 (-((3 : ℚ) / 2)) = 2 ^ 32 - 1
    ∧ ∀ (state : List Coord) (i : ℕ) (x y : ℚ),
        sqDistQ (state.getD i (0, 0)) (x, y) ≠ 0 →
        (addFlyCoords state i (some (x, y))).2.1 = (toU32 x, toU32 y)
        ∧ (addFlyCoords state i (some (x, y))).1 = state.set i (toU32 x, toU32 y) := by
  refine ⟨?_, ?_, ?_, ?_⟩
  · intro q hq
    unfold toU32 ratTrunc
    rw [if_pos hq]
    exact Int.toNat_of_nonneg (Int.emod_nonneg _ (by norm_num))
  · unfold toU32 ratTrunc
    rw [if_pos (by norm_num)]
    have h5 : ⌊(5 : ℚ) / 2⌋ = 2 := by
      rw [Int.floor_eq_iff]
      norm_num
    rw [h5]
    decide
  · unfold toU32 ratTrunc
    rw [if_neg (by norm_num)]
    have h3 : ⌈-((3 : ℚ) / 2)⌉ = -1 := by
      rw [Int.ceil_eq_iff]
      norm_num
    rw [h3]
    decide
  · intro state i x y hd2
    rw [addFlyCoords_some_moved state i x y hd2]
    exact ⟨rfl, rfl⟩

theorem c10_uint32_truncation_storage_witness :
    ((toU32 ((7 : ℚ)) : ℤ) = ⌊(7 : ℚ)⌋ % 2 ^ 32)
    ∧ (addFlyCoords [(5, 7)] 0 (some (9, 8))).1 = [(5, 7)].set 0 (toU32 9, toU32 8) := by
  constructor
  · exact c10_uint32_truncation_storage.1 7 (by norm_num)
  · exact (c10_uint32_truncation_storage.2.2.2 [(5, 7)] 0 9 8 (by norm_num [sqDistQ])).2

/-! ## C6: the `add_fly_coords` acceptance policy -/

/-- C6: if no blob was detected (`coords = None`) or the new point is at
distance exactly zero from the previously accepted point, the ROI's
accepted point is unchanged; otherwise the new point is accepted (stored
through the uint32 cast); the call returns the accepted point, and no
other ROI's accepted point changes. -/
theorem c6_add_fly_coords_policy (state : List Coord) (i : ℕ) (coords : Option (ℚ × ℚ))
    (hi : i < state.length) (hb : ∀ p ∈ state, p.1 < 2 ^ 32 ∧ p.2 < 2 ^ 32) :
    ((coords = none ∨
        coords = some (((state.getD i (0, 0)).1 : ℚ), ((state.getD i (0, 0)).2 : ℚ))) →
      (addFlyCoords state i coords).1 = state
      ∧ (addFlyCoords state i coords).2.1 = state.getD i (0, 0))
    ∧ (∀ x y, coords = some (x, y) →
        (x, y) ≠ (((state.getD i (0, 0)).1 : ℚ), ((state.getD i (0, 0)).2 : ℚ)) →
        (addFlyCoords state i coords).1 = state.set i (toU32 x, toU32 y)
        ∧ (addFlyCoords state i coords).2.1 = (toU32 x, toU32 y))
    ∧ (∀ j, j ≠ i → ((addFlyCoords state i coords).1).getD j (0, 0) = state.getD j (0, 0)) := by
  have hmem : state.getD i (0, 0) ∈ state := by
    rw [List.getD_eq_getElem state (0, 0) hi]
    exact List.getElem_mem hi
  obtain ⟨hb1, hb2⟩ := hb _ hmem
  have hz : sqDistQ (state.getD i (0, 0))
      (((state.getD i (0, 0)).1 : ℚ), ((state.getD i (0, 0)).2 : ℚ)) = 0 :=
    (sqDistQ_eq_zero_iff _ _).mpr rfl
  have hstored :
      (toU32 (((state.getD i (0, 0)).1 : ℚ)), toU32 (((state.getD i (0, 0)).2 : ℚ)))
        = state.getD i (0, 0) := by
    rw [toU32_natCast hb1, toU32_natCast hb2]
  refine ⟨?_, ?_, ?_⟩
  · rintro (rfl | rfl)
    · rw [addFlyCoords_none_eval state i, hstored]
      exact ⟨listSet_getD_self _ _ _ hi, rfl⟩
    · rw [addFlyCoords_some_still state i, hstored]
      exact ⟨listSet_getD_self _ _ _ hi, rfl⟩
  · rintro x y rfl hne
    have hd2 : sqDistQ (state.getD i (0, 0)) (x, y) ≠ 0 := by
      intro h
      exact hne ((sqDistQ_eq_zero_iff _ _).mp h)
    rw [addFlyCoords_some_moved state i x y hd2]
    exact ⟨rfl, rfl⟩
  · intro j hj
    simp only [addFlyCoords]
    exact listGetD_set_ne state i j _ _ hj

theorem c6_add_fly_coords_policy_witness :
    ((addFlyCoords [(5, 7)] 0 none).1 = [(5, 7)]
      ∧ (addFlyCoords [(5, 7)] 0 none).2.1 = [((5 : ℕ), (7 : ℕ))].getD 0 (0, 0))
    ∧ ((addFlyCoords [(5, 7)] 0 (some (9, 8))).1 = [(5, 7)].set 0 (toU32 9, toU32 8)) := by
  refine ⟨?_, ?_⟩
  · exact (c6_add_fly_coords_policy [(5, 7)] 0 none (by decide) (by decide)).1 (Or.inl rfl)
  · exact ((c6_add_fly_coords_policy [(5, 7)] 0 (some (9, 8)) (by decide) (by decide)).2.1
      9 8 rfl (by norm_num)).1

/-! ## C4: contour selection -/

/-- C4 counterexample: with a qualifying contour of area 10 (centroid
`(1,1)`) followed by a qualifying contour of area 50 (centroid `(2,2)`),
the loop selects the second — the largest qualifying area — not the first
qualifying contour as the claim states. -/
theorem c4_not_first_qualifying_contour :
    selectFly [contourSmall, contourLarge] = some (50, (2, 2))
    ∧ selectFlyFirstQualifying [contourSmall, contourLarge] = some (10, (1, 1))
    ∧ selectFly [contourSmall, contourLarge]
        ≠ selectFlyFirstQualifying [contourSmall, contourLarge] := by
  have hS : contourAreaCoords contourSmall = (10, (1, 1)) := by
    norm_num [contourAreaCoords, contourSmall]
  have hL : contourAreaCoords contourLarge = (50, (2, 2)) := by
    norm_num [contourAreaCoords, contourLarge]
  refine ⟨?_, ?_, ?_⟩
  · simp only [selectFly, List.foldl, selectFlyStep, hS, hL]
    norm_num
  · simp only [selectFlyFirstQualifying, hS]
    norm_num
  · simp only [selectFly, List.foldl, selectFlyStep, selectFlyFirstQualifying, hS, hL]
    norm_num

theorem foldl_selectFlyStep (l : List Contour) (acc : Option (ℚ × (ℚ × ℚ))) :
    l.foldl selectFlyStep acc = mergeSel acc (largestQualifying l) := by
  induction l generalizing acc with
  | nil => cases acc <;> rfl
  | cons c rest ih =>
    rw [List.foldl_cons, ih]
    rcases hrest : largestQualifying rest with _ | b
    · cases acc with
      | none =>
        simp only [selectFlyStep, largestQualifying, hrest]
        split_ifs <;> rfl
      | some p =>
        simp only [selectFlyStep, largestQualifying, hrest]
        split_ifs <;> simp only [mergeSel] <;> split_ifs <;> first | rfl | linarith
    · cases acc with
      | none =>
        simp only [selectFlyStep, largestQualifying, hrest]
        split_ifs <;> simp only [mergeSel] <;> split_ifs <;> first | rfl | linarith
      | some p =>
        simp only [selectFlyStep, largestQualifying, hrest]
        split_ifs <;> simp only [mergeSel] <;> split_ifs <;> first | rfl | linarith

/-- C4 amended: the detection fed into `add_fly_coords` is the
largest-area contour among those whose area is below the 400 ceiling
(earliest on ties); the centroid comes from the image moments with the
bounding-box-center fallback, and `None` is fed when no contour
qualifies. -/
theorem c4_amended_largest_qualifying_contour (cnts : List Contour) :
    selectFly cnts = largestQualifying cnts := by
  rw [selectFly, foldl_selectFlyStep]
  cases largestQualifying cnts <;> rfl

/-! ## C3: the `AveragePosition` merge -/

/-- C3: `AveragePosition.aggregate_with` computes the count-weighted mean
of the two partial means but never updates `_n_values`: merging three
successive single-sample partial aggregates with x-means `0, 3, 3` yields
`9/4`, while the mean of the window's samples — what a count-carrying
merge produces — is `2`. -/
theorem c3_average_position_merge_drops_count_bug :
    c3MergedRecord.values.1 = 9 / 4
    ∧ c3MergedRecord.nValues = 1
    ∧ ((calcPositionRoi c3WholeWindow).1 : ℚ) = 2
    ∧ (9 / 4 : ℚ) ≠ 2 := by
  have h1 : calcPositionRoi c3Window1 = (0, 0) := by
    simp [calcPositionRoi, c3Window1]
  have h2 : calcPositionRoi c3Window2 = (3, 0) := by
    simp [calcPositionRoi, c3Window2]
  have h3 : calcPositionRoi c3Window3 = (3, 0) := by
    simp [calcPositionRoi, c3Window3]
  have hw : calcPositionRoi c3WholeWindow = (2, 0) := by
    simp [calcPositionRoi, c3WholeWindow]
  refine ⟨?_, ?_, ?_, by norm_num⟩
  · simp only [c3MergedRecord, mkAveragePosition, AveragePositionData.aggregateWith,
      h1, h2, h3]
    norm_num [c3Window1, c3Window2, c3Window3]
  · simp only [c3MergedRecord, mkAveragePosition, AveragePositionData.aggregateWith]
    norm_num [c3Window1]
  · rw [hw]
    norm_num

/-! ## C9: configuration validation -/

/-- C9 counterexample: a configuration whose monitored-area count is `-1`
(≤ 0) validates with no error at all, and area options whose interval
unit is `None` (not in `{frames, sec, min}`) also validate clean — the
code's tests are `count == 0` and `units not in [None, frames, sec,
min]`. -/
theorem c9_rules_counterexample :
    c9NegCountConfig.monitoredAreasCount < 0
    ∧ configValidate allFilesExist c9NegCountConfig = []
    ∧ c9NoneUnitsOptions.aggregationIntervalUnits = none
    ∧ maValidate allFilesExist c9NoneUnitsOptions = [] := by
  decide

theorem areaCountMsg_not_in_validateSource (fe : String → Bool) (c : ConfigOptions) :
    ConfigError.areaCountNotPositive ∉ validateSource fe c := by
  intro hx
  simp only [validateSource, List.mem_append] at hx
  rcases hx with ((hx | hx) | hx) | hx
  · rcases hs : c.source with _ | s <;> rw [hs] at hx <;> simp at hx <;>
      split_ifs at hx <;> simp_all
  · rcases hd : c.dataFolder with _ | d <;> rw [hd] at hx <;> simp at hx <;>
      split_ifs at hx <;> simp_all
  · split_ifs at hx <;> simp_all
  · rcases hi : c.imageSize with _ | sz <;> rw [hi] at hx <;> simp at hx <;>
      split_ifs at hx <;> simp_all

theorem mem_regionErrors_shape (fe : String → Bool) :
    ∀ (l : List MonitoredAreaOptions) (i : ℤ) (x : ConfigError),
    x ∈ regionErrors fe i l → ∃ j e, x = ConfigError.region j e := by
  intro l
  induction l with
  | nil => intro i x hx; simp [regionErrors] at hx
  | cons a rest ih =>
    intro i x hx
    simp only [regionErrors, List.mem_append, List.mem_map] at hx
    rcases hx with ⟨e, _, rfl⟩ | hx
    · exact ⟨i, e, rfl⟩
    · exact ih (i + 1) x hx

theorem regionErrors_mem_of (fe : String → Bool) :
    ∀ (l : List MonitoredAreaOptions) (i : ℤ) (j : ℕ) (e : ConfigError),
    j < l.length → e ∈ maValidate fe (l.getD j ⟨none, 0, 0, none⟩) →
    ConfigError.region (i + j) e ∈ regionErrors fe i l := by
  intro l
  induction l with
  | nil => intro i j e hj _; simp at hj
  | cons a rest ih =>
    intro i j e hj he
    cases j with
    | zero =>
      simp only [regionErrors, List.mem_append, List.mem_map]
      left
      refine ⟨e, by simpa [List.getD] using he, by norm_num⟩
    | succ k =>
      simp only [regionErrors, List.mem_append]
      right
      have hrec := ih (i + 1) k e (by simpa using hj) (by simpa [List.getD] using he)
      have hcast : i + ((k + 1 : ℕ) : ℤ) = (i + 1) + (k : ℤ) := by push_cast; ring
      rw [hcast]
      exact hrec

/-- C9 amended: one `validate()` call accumulates one message per violated
rule without short-circuiting — the area-level list has exactly one entry
per violated rule among {mask file unset/empty/nonexistent, track type not
in {0,1,2}, interval ≤ 0, units not in {None, frames, sec, min}} — the
area-count message appears iff the count is exactly 0 (a negative count is
not flagged), and every violated area rule surfaces, region-tagged, in the
single list `ConfigOptions.validate` returns. -/
theorem c9_amended_validation_accumulates (fe : String → Bool) (o : MonitoredAreaOptions)
    (c : ConfigOptions) :
    ((maValidate fe o).length =
      (if maskRuleViolated fe o then 1 else 0) + (if trackTypeRuleViolated o then 1 else 0)
      + (if intervalRuleViolated o then 1 else 0) + (if unitsRuleViolated o then 1 else 0))
    ∧ (ConfigError.areaCountNotPositive ∈ configValidate fe c ↔ c.monitoredAreasCount = 0)
    ∧ (∀ (j : ℕ) (e : ConfigError),
        j < (pyTakeSlice c.monitoredAreas c.monitoredAreasCount).length →
        e ∈ maValidate fe ((pyTakeSlice c.monitoredAreas c.monitoredAreasCount).getD j
              ⟨none, 0, 0, none⟩) →
        ConfigError.region ((j : ℤ) + 1) e ∈ configValidate fe c) := by
  refine ⟨?_, ⟨?_, ?_⟩, ?_⟩
  · rcases hm : o.maskfile with _ | m <;> rcases hu : o.aggregationIntervalUnits with _ | u <;>
      simp only [maValidate, maskRuleViolated, trackTypeRuleViolated, intervalRuleViolated,
        unitsRuleViolated, hm, hu] <;>
      split_ifs <;> simp_all
  · intro hx
    simp only [configValidate, List.mem_append] at hx
    rcases hx with (hx | hx) | hx
    · exact absurd hx (areaCountMsg_not_in_validateSource fe c)
    · split_ifs at hx with h1 h2
      · exact h1
      · simp at hx
      · simp at hx
    · obtain ⟨j, e, he⟩ := mem_regionErrors_shape fe _ _ _ hx
      exact absurd he (by simp)
  · intro h0
    simp only [configValidate, List.mem_append]
    left; right
    rw [if_pos h0]
    simp
  · intro j e hj he
    simp only [configValidate, List.mem_append]
    right
    have hrec := regionErrors_mem_of fe _ 1 j e hj he
    have hcast : (1 : ℤ) + (j : ℤ) = (j : ℤ) + 1 := by ring
    rw [hcast] at hrec
    exact hrec

theorem c9_amended_validation_accumulates_witness :
    (maValidate allFilesExist c9AllBadOptions).length = 4
    ∧ ConfigError.areaCountNotPositive ∈ configValidate allFilesExist c9ZeroCountConfig
    ∧ ConfigError.region 1 (ConfigError.invalidTrackType 7)
        ∈ configValidate allFilesExist c9OneAreaConfig := by
  refine ⟨?_, ?_, ?_⟩
  · exact ((c9_amended_validation_accumulates allFilesExist c9AllBadOptions
      c9ZeroCountConfig).1).trans (by decide)
  · exact ((c9_amended_validation_accumulates allFilesExist c9AllBadOptions
      c9ZeroCountConfig).2.1).mpr rfl
  · have hres := (c9_amended_validation_accumulates allFilesExist c9AllBadOptions
      c9OneAreaConfig).2.2 0 (ConfigError.invalidTrackType 7) (by decide) (by decide)
    simpa using hres

/-! ## The aggregation machine: window and row bookkeeping lemmas -/

theorem consecPairs_short (l : List Coord) (h : l.length ≤ 1) : consecPairs l = [] := by
  cases l with
  | nil => rfl
  | cons a t =>
    cases t with
    | nil => rfl
    | cons b r => simp at h

theorem consecPairs_append_last (l : List Coord) (c : Coord) :
    consecPairs (l ++ [c]) = consecPairs l ++ lastPair l c := by
  induction l with
  | nil => rfl
  | cons a t ih =>
    cases t with
    | nil => rfl
    | cons b r =>
      have hlast : lastPair (a :: b :: r) c = lastPair (b :: r) c := by
        simp [lastPair, List.getLast?_cons_cons]
      calc consecPairs ((a :: b :: r) ++ [c])
          = (a, b) :: consecPairs ((b :: r) ++ [c]) := rfl
        _ = (a, b) :: (consecPairs (b :: r) ++ lastPair (b :: r) c) := by rw [ih]
        _ = consecPairs (a :: b :: r) ++ lastPair (a :: b :: r) c := by
              rw [hlast]; simp [consecPairs]

theorem flatJoin_append (l1 l2 : List DistRow) :
    flatJoin (l1 ++ l2) = flatJoin l1 ++ flatJoin l2 := by
  induction l1 with
  | nil => rfl
  | cons r t ih => simp [flatJoin, ih]

theorem updateAt_length (rows : List DistRow) (i : ℕ) (row : DistRow) :
    (updateAt rows i row).length = rows.length := by
  induction rows generalizing i with
  | nil => rfl
  | cons r t ih =>
    cases i with
    | zero => rfl
    | succ j => simp [updateAt, ih]

theorem flatJoin_updateAt (rows : List DistRow) (i : ℕ) (row : DistRow)
    (h : rows.length = i + 1) :
    flatJoin (updateAt rows i row) = flatJoin rows ++ row := by
  induction rows generalizing i with
  | nil => simp at h
  | cons r t ih =>
    cases i with
    | zero =>
      have ht : t = [] := by
        have h0 : t.length = 0 := by simpa using h
        exact List.length_eq_zero.mp h0
      subst ht
      simp [updateAt, flatJoin]
    | succ j =>
      simp only [updateAt, flatJoin]
      rw [ih j (by simpa using h), List.append_assoc]

theorem drop_length_sub_one (l : List Coord) :
    l.drop (l.length - 1) = (l.getLast?).toList := by
  induction l with
  | nil => rfl
  | cons a t ih =>
    cases t with
    | nil => rfl
    | cons b r =>
      calc (a :: b :: r).drop ((a :: b :: r).length - 1)
          = (b :: r).drop ((b :: r).length - 1) := by
            simp only [List.length_cons]
            rw [Nat.add_sub_cancel, Nat.add_sub_cancel, List.drop_succ_cons]
        _ = (b :: r).getLast?.toList := ih
        _ = (a :: b :: r).getLast?.toList := by rw [List.getLast?_cons_cons]

theorem calcDist_spec (st : MAState) :
    (calcDistState st).buffer.length ≤ 1
    ∧ (calcDistState st).buffer.getLast? = st.buffer.getLast?
    ∧ calcDistRow st ++ consecPairs (calcDistState st).buffer = consecPairs st.buffer
    ∧ (calcDistState st).aggregatedFrames = st.aggregatedFrames
    ∧ (calcDistState st).aggregatedFramesSize = st.aggregatedFramesSize
    ∧ (calcDistState st).trackingDataBufferSize = st.trackingDataBufferSize
    ∧ (calcDistState st).currentFrameFlyCoord = st.currentFrameFlyCoord
    ∧ (calcDistState st).aggregatedFrameIndex = st.aggregatedFrameIndex
    ∧ (calcDistState st).written = st.written
    ∧ (calcDistState st).trackingDataBuffer = st.trackingDataBuffer
    ∧ (calcDistState st).trackingDataBufferIndex = st.trackingDataBufferIndex := by
  by_cases hb : 2 ≤ st.buffer.length
  · unfold calcDistRow calcDistState shiftDataWindow
    rw [if_pos hb, if_pos hb]
    refine ⟨?_, ?_, ?_, rfl, rfl, rfl, rfl, rfl, rfl, rfl, rfl⟩
    · rw [drop_length_sub_one]
      cases st.buffer.getLast? <;> simp
    · rw [drop_length_sub_one]
      cases hx : st.buffer.getLast? <;> rfl
    · rw [drop_length_sub_one]
      have hcp : consecPairs (st.buffer.getLast?).toList = [] :=
        consecPairs_short _ (by cases st.buffer.getLast? <;> simp)
      rw [hcp, List.append_nil]
  · unfold calcDistRow calcDistState
    rw [if_neg hb, if_neg hb]
    exact ⟨by omega, rfl, rfl, rfl, rfl, rfl, rfl, rfl, rfl, rfl, rfl⟩

theorem bufferRow_spec (st1 : MAState) (row : DistRow)
    (hrows : st1.trackingDataBuffer.length = st1.trackingDataBufferIndex
             ∨ st1.trackingDataBuffer.length = st1.trackingDataBufferIndex + 1) :
    (bufferRow st1 row).trackingDataBuffer.length = st1.trackingDataBufferIndex + 1
    ∧ flatJoin (bufferRow st1 row).trackingDataBuffer = flatJoin st1.trackingDataBuffer ++ row
    ∧ (bufferRow st1 row).trackingDataBufferIndex = st1.trackingDataBufferIndex
    ∧ (bufferRow st1 row).buffer = st1.buffer
    ∧ (bufferRow st1 row).written = st1.written
    ∧ (bufferRow st1 row).aggregatedFrames = st1.aggregatedFrames
    ∧ (bufferRow st1 row).aggregatedFramesSize = st1.aggregatedFramesSize
    ∧ (bufferRow st1 row).trackingDataBufferSize = st1.trackingDataBufferSize
    ∧ (bufferRow st1 row).currentFrameFlyCoord = st1.currentFrameFlyCoord
    ∧ (bufferRow st1 row).aggregatedFrameIndex = st1.aggregatedFrameIndex := by
  rcases hrows with hr | hr
  · unfold bufferRow
    rw [if_pos (le_of_eq hr)]
    refine ⟨by simp [hr], ?_, rfl, rfl, rfl, rfl, rfl, rfl, rfl, rfl⟩
    rw [flatJoin_append]
    simp [flatJoin]
  · have hc : ¬(st1.trackingDataBuffer.length ≤ st1.trackingDataBufferIndex) := by omega
    unfold bufferRow
    rw [if_neg hc]
    exact ⟨by rw [updateAt_length]; exact hr, flatJoin_updateAt _ _ _ hr, rfl, rfl, rfl, rfl,
      rfl, rfl, rfl, rfl⟩

theorem aggregateActivity_spec (st : MAState)
    (hrows : st.trackingDataBuffer.length = st.trackingDataBufferIndex
             ∨ st.trackingDataBuffer.length = st.trackingDataBufferIndex + 1) :
    (aggregateActivity st).buffer.length ≤ 1
    ∧ (aggregateActivity st).buffer.getLast? = st.buffer.getLast?
    ∧ (flatJoin (aggregateActivity st).trackingDataBuffer
        ++ consecPairs (aggregateActivity st).buffer
        = flatJoin st.trackingDataBuffer ++ consecPairs st.buffer)
    ∧ (aggregateActivity st).trackingDataBuffer.length
        = (aggregateActivity st).trackingDataBufferIndex + 1
    ∧ (aggregateActivity st).trackingDataBufferIndex = st.trackingDataBufferIndex
    ∧ (aggregateActivity st).written = st.written
    ∧ (aggregateActivity st).aggregatedFrames = st.aggregatedFrames
    ∧ (aggregateActivity st).aggregatedFramesSize = st.aggregatedFramesSize
    ∧ (aggregateActivity st).trackingDataBufferSize = st.trackingDataBufferSize
    ∧ (aggregateActivity st).currentFrameFlyCoord = st.currentFrameFlyCoord
    ∧ (aggregateActivity st).aggregatedFrameIndex = st.aggregatedFrameIndex := by
  obtain ⟨c1, c2, c3, c4, c5, c6, c7, c8, c9, c10, c11⟩ := calcDist_spec st
  have hrows1 : (calcDistState st).trackingDataBuffer.length
      = (calcDistState st).trackingDataBufferIndex
      ∨ (calcDistState st).trackingDataBuffer.length
      = (calcDistState st).trackingDataBufferIndex + 1 := by
    rw [c10, c11]; exact hrows
  obtain ⟨b1, b2, b3, b4, b5, b6, b7, b8, b9, b10⟩ :=
    bufferRow_spec (calcDistState st) (calcDistRow st) hrows1
  unfold aggregateActivity
  refine ⟨?_, ?_, ?_, ?_, ?_, ?_, ?_, ?_, ?_, ?_, ?_⟩
  · rw [b4]; exact c1
  · rw [b4, c2]
  · rw [b4, b2, c10, List.append_assoc, c3]
  · rw [b1, b3]
  · rw [b3, c11]
  · rw [b5, c9]
  · rw [b6, c4]
  · rw [b7, c5]
  · rw [b8, c6]
  · rw [b9, c7]
  · rw [b10, c8]

theorem bufferOrFlush_spec (sta : MAState)
    (hlen : sta.trackingDataBuffer.length = sta.trackingDataBufferIndex + 1) :
    (flatJoin (bufferOrFlush sta).written ++ flatJoin (bufferOrFlush sta).trackingDataBuffer
      = flatJoin sta.written ++ flatJoin sta.trackingDataBuffer)
    ∧ ((bufferOrFlush sta).trackingDataBuffer.length = (bufferOrFlush sta).trackingDataBufferIndex
       ∨ (bufferOrFlush sta).trackingDataBuffer.length
         = (bufferOrFlush sta).trackingDataBufferIndex + 1)
    ∧ (bufferOrFlush sta).buffer = sta.buffer
    ∧ (bufferOrFlush sta).currentFrameFlyCoord = sta.currentFrameFlyCoord
    ∧ (bufferOrFlush sta).aggregatedFrames = sta.aggregatedFrames
    ∧ (bufferOrFlush sta).aggregatedFramesSize = sta.aggregatedFramesSize
    ∧ (bufferOrFlush sta).trackingDataBufferSize = sta.trackingDataBufferSize := by
  unfold bufferOrFlush writeActivity
  by_cases hc : sta.trackingDataBuffer.length < sta.trackingDataBufferSize
  · rw [if_pos hc]
    exact ⟨rfl, Or.inl hlen, rfl, rfl, rfl, rfl, rfl⟩
  · rw [if_neg hc]
    refine ⟨?_, Or.inl rfl, rfl, rfl, rfl, rfl, rfl⟩
    rw [flatJoin_append]
    simp [flatJoin]

theorem updateStep1_inv {sz : ℕ} {st : MAState} {hist : List Coord} (h : MAInv sz st hist) :
    MAInv sz (updateStep1 st) hist
    ∧ (updateStep1 st).buffer.length < sz
    ∧ (updateStep1 st).currentFrameFlyCoord = st.currentFrameFlyCoord := by
  obtain ⟨hsize, hge, hbound, hlast, hacct, hrows⟩ := h
  unfold updateStep1
  by_cases h1 : st.aggregatedFrames ≤ st.aggregatedFrameIndex
  · rw [if_pos h1]
    obtain ⟨a1, a2, a3, a4, a5, a6, a7, a8, a9, a10, a11⟩ := aggregateActivity_spec st hrows
    obtain ⟨b1, b2, b3, b4, b5, b6, b7⟩ := bufferOrFlush_spec (aggregateActivity st) a4
    refine ⟨⟨?_, hge, ?_, ?_, ?_, ?_⟩, ?_, ?_⟩
    · show (bufferOrFlush (aggregateActivity st)).aggregatedFramesSize = sz
      rw [b6, a8, hsize]
    · show (bufferOrFlush (aggregateActivity st)).buffer.length ≤ sz
      rw [b3]
      omega
    · show (bufferOrFlush (aggregateActivity st)).buffer.getLast? = hist.getLast?
      rw [b3, a2, hlast]
    · show flatJoin (bufferOrFlush (aggregateActivity st)).written
          ++ (flatJoin (bufferOrFlush (aggregateActivity st)).trackingDataBuffer
              ++ consecPairs (bufferOrFlush (aggregateActivity st)).buffer)
          = consecPairs hist
      rw [b3, ← List.append_assoc, b1, a6, List.append_assoc, a3]
      exact hacct
    · show (bufferOrFlush (aggregateActivity st)).trackingDataBuffer.length
            = (bufferOrFlush (aggregateActivity st)).trackingDataBufferIndex
          ∨ (bufferOrFlush (aggregateActivity st)).trackingDataBuffer.length
            = (bufferOrFlush (aggregateActivity st)).trackingDataBufferIndex + 1
      exact b2
    · show (bufferOrFlush (aggregateActivity st)).buffer.length < sz
      rw [b3]
      omega
    · show (bufferOrFlush (aggregateActivity st)).currentFrameFlyCoord
          = st.currentFrameFlyCoord
      rw [b4, a10]
  · rw [if_neg h1]
    by_cases h2 : st.aggregatedFramesSize ≤ st.buffer.length
    · rw [if_pos h2]
      obtain ⟨a1, a2, a3, a4, a5, a6, a7, a8, a9, a10, a11⟩ := aggregateActivity_spec st hrows
      refine ⟨⟨by rw [a8, hsize], hge, by omega, by rw [a2, hlast], ?_, Or.inr a4⟩,
        by omega, a10⟩
      rw [a6, a3]
      exact hacct
    · rw [if_neg h2]
      exact ⟨⟨hsize, hge, hbound, hlast, hacct, hrows⟩, by omega, rfl⟩

theorem appendCurrent_inv {sz : ℕ} {st : MAState} {hist : List Coord}
    (h : MAInv sz st hist) (hlen : st.buffer.length < sz) :
    MAInv sz (appendCurrent st) (hist ++ [st.currentFrameFlyCoord]) := by
  obtain ⟨hsize, hge, hbound, hlast, hacct, hrows⟩ := h
  refine ⟨hsize, hge, ?_, ?_, ?_, hrows⟩
  · show (st.buffer ++ [st.currentFrameFlyCoord]).length ≤ sz
    rw [List.length_append]
    simp only [List.length_cons, List.length_nil]
    omega
  · show (st.buffer ++ [st.currentFrameFlyCoord]).getLast?
        = (hist ++ [st.currentFrameFlyCoord]).getLast?
    rw [List.getLast?_concat, List.getLast?_concat]
  · show flatJoin st.written ++ (flatJoin st.trackingDataBuffer
        ++ consecPairs (st.buffer ++ [st.currentFrameFlyCoord]))
      = consecPairs (hist ++ [st.currentFrameFlyCoord])
    rw [consecPairs_append_last, consecPairs_append_last]
    have hlp : lastPair st.buffer st.currentFrameFlyCoord
        = lastPair hist st.currentFrameFlyCoord := by
      unfold lastPair
      rw [hlast]
    rw [hlp, ← hacct]
    simp [List.append_assoc]

theorem stepCoord_inv {sz : ℕ} {st : MAState} {hist : List Coord}
    (h : MAInv sz st hist) (c : Coord) :
    MAInv sz (stepCoord st c) (hist ++ [c]) := by
  have h2 : MAInv sz { st with currentFrameFlyCoord := c } hist := by
    obtain ⟨hsize, hge, hbound, hlast, hacct, hrows⟩ := h
    exact ⟨hsize, hge, hbound, hlast, hacct, hrows⟩
  obtain ⟨h3, hlen, hcur⟩ := updateStep1_inv h2
  have h4 := appendCurrent_inv h3 hlen
  rw [hcur] at h4
  exact h4

theorem runCoords_inv {sz : ℕ} :
    ∀ (l : List Coord) {st : MAState} {hist : List Coord},
    MAInv sz st hist → MAInv sz (runCoords st l) (hist ++ l) := by
  intro l
  induction l with
  | nil =>
    intro st hist h
    simpa using h
  | cons c rest ih =>
    intro st hist h
    have h3 := ih (stepCoord_inv h c)
    simpa [List.append_assoc] using h3

theorem mkMonitoredArea_inv (af s b : ℤ) :
    MAInv (mkMonitoredArea af s b).aggregatedFramesSize (mkMonitoredArea af s b) [] := by
  refine ⟨rfl, ?_, ?_, rfl, rfl, Or.inl rfl⟩
  · show 2 ≤ (mkMonitoredArea af s b).aggregatedFramesSize
    unfold mkMonitoredArea
    split_ifs with hs <;> simp <;> omega
  · show (0 : ℕ) ≤ (mkMonitoredArea af s b).aggregatedFramesSize
    exact Nat.zero_le _

theorem finishRun_flush {sz : ℕ} {st : MAState} {hist : List Coord} (h : MAInv sz st hist) :
    flatJoin (finishRun st).written = consecPairs hist
    ∧ (finishRun st).trackingDataBuffer = [] := by
  obtain ⟨hsize, hge, hbound, hlast, hacct, hrows⟩ := h
  obtain ⟨a1, a2, a3, a4, a5, a6, a7, a8, a9, a10, a11⟩ := aggregateActivity_spec st hrows
  unfold finishRun writeActivity
  constructor
  · show flatJoin ((aggregateActivity st).written ++ (aggregateActivity st).trackingDataBuffer)
        = consecPairs hist
    rw [flatJoin_append, a6]
    have hcp : consecPairs (aggregateActivity st).buffer = [] := consecPairs_short _ a1
    rw [hcp, List.append_nil] at a3
    rw [a3]
    exact hacct
  · rfl

/-- C1: for every constructed `MonitoredArea` and every sequence of
appended per-frame samples, the live window holds at most
`aggregated_frames_size` = cap+1 snapshots after every
`update_frame_activity` call (every reachable state is
`runCoords ... samples` for some prefix), and after the final
`aggregate_activity` and flush the concatenation of all written rows'
step lists is exactly the consecutive-step list of the full sample
sequence: the partial-aggregate-and-compact path loses no inter-frame
step and double-counts none. -/
theorem c1_window_buffer_bounded_and_steps_exactly_once (af s b : ℤ) (samples : List Coord) :
    (runCoords (mkMonitoredArea af s b) samples).buffer.length
      ≤ (mkMonitoredArea af s b).aggregatedFramesSize
    ∧ flatJoin (finishRun (runCoords (mkMonitoredArea af s b) samples)).written
      = consecPairs samples := by
  have h1 := runCoords_inv samples (mkMonitoredArea_inv af s b)
  rw [List.nil_append] at h1
  exact ⟨h1.buf_bound, (finishRun_flush h1).1⟩

/-! ## C2: the 100-frame distance scenario -/

theorem aggregateActivity_current (st : MAState) :
    (aggregateActivity st).currentFrameFlyCoord = st.currentFrameFlyCoord := by
  unfold aggregateActivity bufferRow calcDistState shiftDataWindow
  split_ifs <;> rfl

theorem bufferOrFlush_current (sta : MAState) :
    (bufferOrFlush sta).currentFrameFlyCoord = sta.currentFrameFlyCoord := by
  unfold bufferOrFlush writeActivity
  split_ifs <;> rfl

theorem stepCoord_current (st : MAState) (c : Coord) :
    (stepCoord st c).currentFrameFlyCoord = c := by
  unfold stepCoord updateFrameActivity appendCurrent updateStep1
  split_ifs with h1 h2
  · show (bufferOrFlush (aggregateActivity { st with currentFrameFlyCoord := c
      })).currentFrameFlyCoord = c
    rw [bufferOrFlush_current, aggregateActivity_current]
  · show (aggregateActivity { st with currentFrameFlyCoord := c }).currentFrameFlyCoord = c
    rw [aggregateActivity_current]
  · rfl

theorem runFrames_eq_runCoords :
    ∀ (l : List (Option (ℚ × ℚ))) (st : MAState),
    runFrames st l = runCoords st (acceptedScan st.currentFrameFlyCoord l) := by
  intro l
  induction l with
  | nil => intro st; rfl
  | cons c rest ih =>
    intro st
    simp only [runFrames, acceptedScan, runCoords]
    rw [ih (stepFrame st c)]
    show runCoords (stepCoord st (acceptCoords st.currentFrameFlyCoord c))
        (acceptedScan (stepCoord st (acceptCoords st.currentFrameFlyCoord c)).currentFrameFlyCoord
          rest)
      = runCoords (stepCoord st (acceptCoords st.currentFrameFlyCoord c))
        (acceptedScan (acceptCoords st.currentFrameFlyCoord c) rest)
    rw [stepCoord_current]

theorem acceptCoords_intCoords (p c : Coord) (h1 : c.1 < 2 ^ 32) (h2 : c.2 < 2 ^ 32) :
    acceptCoords p (some ((c.1 : ℚ), (c.2 : ℚ))) = c := by
  show (if sqDistQ p ((c.1 : ℚ), (c.2 : ℚ)) = 0 then p
    else (toU32 ((c.1 : ℚ)), toU32 ((c.2 : ℚ)))) = c
  by_cases hz : sqDistQ p ((c.1 : ℚ), (c.2 : ℚ)) = 0
  · rw [if_pos hz]
    have hq := (sqDistQ_eq_zero_iff p _).mp hz
    have e1 : (c.1 : ℚ) = (p.1 : ℚ) := congrArg Prod.fst hq
    have e2 : (c.2 : ℚ) = (p.2 : ℚ) := congrArg Prod.snd hq
    exact (Prod.ext (Nat.cast_injective e1) (Nat.cast_injective e2)).symm
  · rw [if_neg hz]
    rw [toU32_natCast h1, toU32_natCast h2]

theorem acceptedScan_intCoords :
    ∀ (l : List Coord) (p : Coord),
    (∀ c ∈ l, c.1 < 2 ^ 32 ∧ c.2 < 2 ^ 32) →
    acceptedScan p (l.map fun c => some ((c.1 : ℚ), (c.2 : ℚ))) = l := by
  intro l
  induction l with
  | nil => intro p _; rfl
  | cons c rest ih =>
    intro p hb
    obtain ⟨h1, h2⟩ := hb c (List.mem_cons_self c rest)
    simp only [List.map, acceptedScan]
    rw [acceptCoords_intCoords p c h1 h2, ih c (fun x hx => hb x (List.mem_cons_of_mem c hx))]

theorem c2Run_eq_natRun :
    c2Run = finishRun (runCoords (mkMonitoredArea 50 50 5) c2Samples) := by
  unfold c2Run c2Inputs
  rw [runFrames_eq_runCoords, acceptedScan_intCoords c2Samples _ (by decide)]

set_option maxRecDepth 8000 in
theorem c2Run_rowSqDists :
    c2Run.written.map rowSqDists = [List.replicate 49 1, List.replicate 50 1] := by
  rw [c2Run_eq_natRun]
  decide

theorem listGetD_map (f : DistRow → List ℕ) (l : List DistRow) (i : ℕ) :
    (l.map f).getD i (f []) = f (l.getD i []) := by
  induction l generalizing i with
  | nil => rfl
  | cons r t ih =>
    cases i with
    | zero => rfl
    | succ j =>
      simp only [List.map, List.getD_cons_succ]
      exact ih j

theorem distRow_sqrt_sum (r : DistRow) (n : ℕ) (h : rowSqDists r = List.replicate n 1) :
    (r.map fun pq => Real.sqrt ((sqDistU32 pq.1 pq.2 : ℕ) : ℝ)).sum = n := by
  have hmap : r.map (fun pq => Real.sqrt ((sqDistU32 pq.1 pq.2 : ℕ) : ℝ))
      = (rowSqDists r).map (fun m : ℕ => Real.sqrt (m : ℝ)) := by
    unfold rowSqDists
    rw [List.map_map]
    rfl
  rw [hmap, h, List.map_replicate, Nat.cast_one, Real.sqrt_one, List.sum_replicate,
    nsmul_eq_mul, mul_one]

/-- C2 counterexample: in the 100-frame, 1-px-per-frame, 50-frame-interval
distance scenario the machine emits exactly 2 rows, but the second row's
distance value — the sum of the square roots of its squared step
distances — is 50, not the claimed 49: the second window spans the
retained boundary frame 50 through frame 100, 50 inter-frame steps. -/
theorem c2_second_row_carries_50_not_49 :
    c2Run.written.length = 2
    ∧ ((c2Run.written.getD 1 []).map fun pq =>
        Real.sqrt ((sqDistU32 pq.1 pq.2 : ℕ) : ℝ)).sum = 50
    ∧ (50 : ℝ) ≠ 49 := by
  have hm := c2Run_rowSqDists
  refine ⟨?_, ?_, by norm_num⟩
  · have hl := congrArg List.length hm
    simpa using hl
  · apply distRow_sqrt_sum
    have h2 : rowSqDists (c2Run.written.getD 1 [])
        = (c2Run.written.map rowSqDists).getD 1 (rowSqDists []) :=
      (listGetD_map rowSqDists c2Run.written 1).symm
    rw [h2, hm]
    rfl

/-- C2 amended: the scenario emits exactly 2 output rows; the first
carries the distance value 49 (49 unit steps over frames 1-50) and the
second carries 50 (50 unit steps over the retained frame 50 through frame
100). -/
theorem c2_amended_two_rows_49_and_50 :
    c2Run.written.length = 2
    ∧ ((c2Run.written.getD 0 []).map fun pq =>
        Real.sqrt ((sqDistU32 pq.1 pq.2 : ℕ) : ℝ)).sum = 49
    ∧ ((c2Run.written.getD 1 []).map fun pq =>
        Real.sqrt ((sqDistU32 pq.1 pq.2 : ℕ) : ℝ)).sum = 50 := by
  have hm := c2Run_rowSqDists
  refine ⟨?_, ?_, ?_⟩
  · have hl := congrArg List.length hm
    simpa using hl
  · apply distRow_sqrt_sum
    have h2 : rowSqDists (c2Run.written.getD 0 [])
        = (c2Run.written.map rowSqDists).getD 0 (rowSqDists []) :=
      (listGetD_map rowSqDists c2Run.written 0).symm
    rw [h2, hm]
    rfl
  · apply distRow_sqrt_sum
    have h2 : rowSqDists (c2Run.written.getD 1 [])
        = (c2Run.written.map rowSqDists).getD 1 (rowSqDists []) :=
      (listGetD_map rowSqDists c2Run.written 1).symm
    rw [h2, hm]
    rfl

/-! ## C7: untrackable ROIs keep a zero column -/

theorem consecPairs_mem :
    ∀ (l : List Coord) (pq : Coord × Coord), pq ∈ consecPairs l → pq.1 ∈ l ∧ pq.2 ∈ l := by
  intro l
  induction l with
  | nil => intro pq h; simp [consecPairs] at h
  | cons a t ih =>
    intro pq h
    cases t with
    | nil => simp [consecPairs] at h
    | cons b r =>
      simp only [consecPairs] at h
      rcases List.mem_cons.mp h with heq | hmem
      · subst heq
        exact ⟨List.mem_cons_self _ _, List.mem_cons_of_mem _ (List.mem_cons_self _ _)⟩
      · obtain ⟨m1, m2⟩ := ih pq hmem
        exact ⟨List.mem_cons_of_mem a m1, List.mem_cons_of_mem a m2⟩

/-- C7: for a ROI excluded by the trackable filter, under the pipeline
precondition that `add_fly_coords` was never invoked for it (all its
stored window samples are `(0, 0)`), all three aggregations put the
constant zero value at its position: the distance sum is 0, the
beam-crossing count is 0, and the position mean is `(0, 0)` — the column
is kept, not omitted. -/
theorem c7_untrackable_roi_zero_columns (roiFilter : Option (List ℕ)) (roi : ℕ)
    (beam : (ℚ × ℚ) × (ℚ × ℚ)) (frames : List Coord)
    (huntrack : isRoiTrackable roiFilter roi = false)
    (hzero : ∀ p ∈ frames, p = ((0 : ℕ), (0 : ℕ))) :
    ((consecPairs frames).map fun pq => Real.sqrt ((sqDistU32 pq.1 pq.2 : ℕ) : ℝ)).sum = 0
    ∧ calcVbmRoi (isRoiTrackable roiFilter roi) beam frames = 0
    ∧ calcPositionRoi frames = (0, 0) := by
  refine ⟨?_, ?_, ?_⟩
  · apply List.sum_eq_zero
    intro x hx
    obtain ⟨pq, hpq, rfl⟩ := List.mem_map.mp hx
    obtain ⟨m1, m2⟩ := consecPairs_mem frames pq hpq
    rw [hzero pq.1 m1, hzero pq.2 m2]
    have h0 : sqDistU32 ((0 : ℕ), (0 : ℕ)) ((0 : ℕ), (0 : ℕ)) = 0 := by decide
    rw [h0, Nat.cast_zero, Real.sqrt_zero]
  · rw [huntrack]
    rfl
  · unfold calcPositionRoi
    by_cases hlen : 2 ≤ frames.length
    · rw [if_pos hlen]
      have hx : ((frames.drop 1).map Prod.fst).sum = 0 := by
        apply List.sum_eq_zero
        intro x hx
        obtain ⟨p, hp, rfl⟩ := List.mem_map.mp hx
        rw [hzero p (List.drop_subset 1 frames hp)]
      have hy : ((frames.drop 1).map Prod.snd).sum = 0 := by
        apply List.sum_eq_zero
        intro x hx
        obtain ⟨p, hp, rfl⟩ := List.mem_map.mp hx
        rw [hzero p (List.drop_subset 1 frames hp)]
      rw [hx, hy]
      simp
    · rw [if_neg hlen]

theorem c7_untrackable_roi_zero_columns_witness :
    isRoiTrackable (some [1]) 0 = false
    ∧ calcVbmRoi (isRoiTrackable (some [1]) 0) ((0, 0), (1, 0)) [(0, 0), (0, 0), (0, 0)] = 0
    ∧ calcPositionRoi [((0 : ℕ), (0 : ℕ)), (0, 0), (0, 0)] = (0, 0) := by
  refine ⟨by decide, ?_, ?_⟩
  · exact (c7_untrackable_roi_zero_columns (some [1]) 0 ((0, 0), (1, 0))
      [(0, 0), (0, 0), (0, 0)] (by decide) (by decide)).2.1
  · exact (c7_untrackable_roi_zero_columns (some [1]) 0 ((0, 0), (1, 0))
      [(0, 0), (0, 0), (0, 0)] (by decide) (by decide)).2.2
